import Mathlib

/-!
Verification of the Raft consensus node (`RaftNode`) of this repository.

The definitions below are a shallow embedding of `RaftNode` from the source
(`onAppendEntriesMessage`, `onRequestVoteMessage`, `applyLogEntry`,
`applyLogEntries`, `startNewElection`).  JavaScript numbers appearing in the
protocol are integral throughout the source, so they are modelled as `Int`;
JS `Map`s are modelled as insertion-ordered association lists; side effects
(RPC sends, timer arming, state-machine invocations) are collected into an
explicit list of `Effect`s.
-/

namespace Raft

/-- Node role, from `State.js` (`FOLLOWER`, `CANDIDATE`, `LEADER`). -/
inductive Role where
  | follower
  | candidate
  | leader
deriving DecidableEq, Repr

/-- Command vocabulary of the applier, from `CommandType` as used in
`applyLogEntry` (`NEW_USER`, `NEW_AUCTION`, `CLOSE_AUCTION`, `NEW_BID`).
Only these four tags reach the applier; the `default: throw` branch of the
source is unreachable in this model. -/
inductive CommandType where
  | newUser
  | newAuction
  | closeAuction
  | newBid
deriving DecidableEq, Repr

/-- One record of the replicated log (`LogRecord` of `Log.js` as used by
`RaftNode`): a term, a command tag, an opaque payload, and the optional
completion callback (`callback`), modelled as a `Bool` flag recording whether
the one-shot handle is still attached. -/
structure LogRecord where
  term : Int
  commandType : CommandType
  payload : Int
  callback : Bool
deriving DecidableEq, Repr

/-- Observable side effects of a handler invocation, in program order:
RPC sends through `rpcManager`, timer operations, the web-server disconnect
signal, and the applier's calls into the external state machine. -/
inductive Effect where
  | sendReplicationResponse (dest : String) (term : Int) (success : Bool)
      (commitIndex lastApplied : Int)
  | sendReplicationTo (dest : String) (messageNum term prevLogIndex : Int)
      (prevLogTerm : Option Int) (entries : List LogRecord) (leaderCommit : Int)
  | sendReplication (messageNum term prevLogIndex : Int)
      (prevLogTerm : Option Int) (entries : List LogRecord) (leaderCommit : Int)
  | sendVote (dest : String) (term : Int) (voteGranted : Bool)
  | sendElectionNotice (term lastLogIndex : Int) (lastLogTerm : Option Int)
  | resetLeaderTimeout
  | stopLeaderTimeout
  | resetElectionTimeout
  | stopElectionTimeout
  | resetHeartbeatTimeout (nodeId : Option String)
  | stopHeartbeatTimeout (nodeId : Option String)
  | disconnectWebSockets
  | invokeStateMachine (index : Int) (cmd : CommandType) (payload : Int)
  | fulfillCallback (index : Int)
deriving DecidableEq, Repr

/-- Parameters of an AppendEntries RPC (`AppendEntriesParameters`), request
and response variants merged as in the source, which dispatches on the
`isResponse` flag; request-only and response-only fields are simply unread in
the other variant. -/
structure AppendEntriesArgs where
  senderId : String
  term : Int
  messageNum : Int
  isResponse : Bool
  prevLogIndex : Int
  prevLogTerm : Option Int
  entries : List LogRecord
  leaderCommit : Int
  success : Bool
  commitIndex : Int
  lastApplied : Int
deriving DecidableEq, Repr

/-- Parameters of a RequestVote RPC (`RequestVoteParameters`), request and
response variants merged, dispatching on `isResponse`.  `lastLogTerm` is
`none` when the candidate's log is empty (the source sends `null`). -/
structure RequestVoteArgs where
  senderId : String
  term : Int
  isResponse : Bool
  lastLogIndex : Int
  lastLogTerm : Option Int
  voteGranted : Bool
deriving DecidableEq, Repr

/-- The per-node mutable state of `RaftNode` that the consensus handlers read
and write.  JS `Map`s (`nextIndex`, `matchIndex`, `lastSent`,
`nodeIdToMessageNum`) are insertion-ordered association lists; `peers` is the
(fixed) key set of `sockets` in insertion order, used by the
`sockets.forEach` loop on election win. -/
structure NodeState where
  role : Role
  currentTerm : Int
  votedFor : Option String
  votesGathered : Nat
  log : List LogRecord
  commitIndex : Int
  lastApplied : Int
  nextIndex : List (String × Int)
  matchIndex : List (String × Int)
  lastSent : List (String × Int)
  nodeIdToMessageNum : List (String × Int)
  currentLeaderId : Option String
  clusterSize : Nat
  lastMessageNum : Int
  peers : List String
deriving DecidableEq, Repr

/-! ### JavaScript semantics helpers -/

/-- JS bracket access `l[i]` on an array: an integer index out of range
(including any negative index) yields `undefined`, modelled as `none`. -/
def jsIndex {α : Type} (l : List α) (i : Int) : Option α :=
  if 0 ≤ i then l[i.toNat]? else none

/-- JS `Array.prototype.at(i)`: a negative index counts from the end. -/
def jsAt {α : Type} (l : List α) (i : Int) : Option α :=
  if 0 ≤ i then l[i.toNat]?
  else if 0 ≤ (l.length : Int) + i then l[((l.length : Int) + i).toNat]?
  else none

/-- JS `Array.prototype.slice(n)` with an integer argument: a negative start
counts from the end. -/
def jsSlice {α : Type} (l : List α) (i : Int) : List α :=
  if 0 ≤ i then l.drop i.toNat
  else l.drop ((l.length : Int) + i).toNat

/-- `Map.get`, returning `none` for a missing key (JS `undefined`). -/
def mapGet (m : List (String × Int)) (k : String) : Option Int :=
  (m.find? (fun p => p.1 = k)).map Prod.snd

/-- `Map.get` followed by use as a number.  The source never guards its
`get()` calls; every theorem below is stated on states where the key is
present, so the default value is never reached there. -/
def mapGetD (m : List (String × Int)) (k : String) : Int :=
  (mapGet m k).getD 0

/-- `Map.set`: updating an existing key keeps its position (JS `Map`
preserves the original insertion position), a fresh key is appended. -/
def mapSet (m : List (String × Int)) (k : String) (v : Int) : List (String × Int) :=
  if m.any (fun p => p.1 = k) then
    m.map (fun p => if p.1 = k then (k, v) else p)
  else m ++ [(k, v)]

/-- `[...map.values()]`: the values in insertion order. -/
def mapValues (m : List (String × Int)) : List Int :=
  m.map Prod.snd

/-- Little-endian-free decimal digit list of a natural number, most
significant digit first; `fuel` bounds the recursion and is always taken
large enough (`n + 1 ≥` number of digits of `n`). -/
def natToDigits : Nat → Nat → List Nat
  | 0, _ => []
  | fuel + 1, n => if n < 10 then [n] else natToDigits fuel (n / 10) ++ [n % 10]

/-- The UTF-16 code units of the JS `ToString` of an integral number:
an optional minus sign (code 45) followed by decimal digit characters
(codes 48..57). -/
def numCodes (i : Int) : List Nat :=
  if i < 0 then 45 :: (natToDigits ((-i).toNat + 1) (-i).toNat).map (fun d => 48 + d)
  else (natToDigits (i.toNat + 1) i.toNat).map (fun d => 48 + d)

/-- Lexicographic comparison of code-unit sequences, exactly the default
comparison of JS `Array.prototype.sort`. -/
def codesLe : List Nat → List Nat → Bool
  | [], _ => true
  | _ :: _, [] => false
  | a :: as, b :: bs =>
    if a < b then true else if b < a then false else codesLe as bs

/-- The default JS sort order on numbers: compare their string forms. -/
def jsNumLe (a b : Int) : Bool :=
  codesLe (numCodes a) (numCodes b)

/-- Insertion of an element into a list sorted by `le`. -/
def insertSorted (le : Int → Int → Bool) (x : Int) : List Int → List Int
  | [] => [x]
  | y :: ys => if le x y then x :: y :: ys else y :: insertSorted le x ys

/-- Sorting by an arbitrary boolean order via insertion sort. -/
def sortByLe (le : Int → Int → Bool) (l : List Int) : List Int :=
  l.foldr (insertSorted le) []

/-- `array.sort()` with no comparator, as applied to the matchIndex values of
numbers: JS converts each element to its string form and compares code
units.  On `Int` values the comparison is a total order and string forms of
distinct values differ, so any sorting algorithm (the source engine's as well
as this insertion sort) produces the same output list. -/
def jsSortInts (l : List Int) : List Int :=
  sortByLe jsNumLe l

/-- Sorting in non-decreasing numerical order (the order the specification's
commit rule describes). -/
def numericSortInts (l : List Int) : List Int :=
  sortByLe (fun a b => decide (a ≤ b)) l

/-- JS loose equality `x == y` between a `Number | undefined` left operand
(`log[i]?.term`) and a `Number | null` right operand (`lastLogTerm`):
`undefined == null` is `true`, `undefined == n` and `n == null` are `false`,
and two numbers compare numerically. -/
def jsLooseEqOpt : Option Int → Option Int → Bool
  | some x, some y => x = y
  | none, none => true
  | _, _ => false

/-- The inclusive integer range `[lo, lo + fuel)` as a list. -/
def intRangeAux (lo : Int) : Nat → List Int
  | 0 => []
  | n + 1 => lo :: intRangeAux (lo + 1) n

/-- The inclusive integer range `[lo, hi]` as a list (empty if `hi < lo`). -/
def intRange (lo hi : Int) : List Int :=
  intRangeAux lo (hi + 1 - lo).toNat

/-! ### The applier (`applyLogEntry`, `applyLogEntries`) -/

/-- `RaftNode.applyLogEntry(index)`: look up `log.at(index)`; when present,
invoke the external state machine for its command (the `switch` over
`commandType`, each arm calling the database manager), then, if the record
still carries its completion callback, fulfill it and clear it
(`logEntry.callback = null`).  A missing record makes the source's async
function throw, which leaves the node state unchanged (the caller never
awaits it); that case is modelled as a no-op. -/
def applyLogEntry (s : NodeState) (index : Int) : NodeState × List Effect :=
  match jsAt s.log index with
  | some e =>
    if e.callback then
      ({ s with log := s.log.set index.toNat { e with callback := false } },
       [Effect.invokeStateMachine index e.commandType e.payload,
        Effect.fulfillCallback index])
    else (s, [Effect.invokeStateMachine index e.commandType e.payload])
  | none => (s, [])

/-- The loop of `applyLogEntries`, over an explicit list of indices. -/
def applyRange (s : NodeState) : List Int → NodeState × List Effect
  | [] => (s, [])
  | i :: rest =>
    let r := applyLogEntry s i
    let r2 := applyRange r.1 rest
    (r2.1, r.2 ++ r2.2)

/-- `RaftNode.applyLogEntries()`: when `commitIndex > lastApplied`, apply the
entries at indices `lastApplied + 1 .. commitIndex` in order, then set
`lastApplied` to `commitIndex`. -/
def applyLogEntries (s : NodeState) : NodeState × List Effect :=
  if s.lastApplied < s.commitIndex then
    let r := applyRange s (intRange (s.lastApplied + 1) s.commitIndex)
    ({ r.1 with lastApplied := s.commitIndex }, r.2)
  else (s, [])

/-! ### AppendEntries handling -/

/-- One iteration of the `args.entries.forEach` loop of
`onAppendEntriesMessage` at target index `j` (`newEntryIndex`): when the log
holds a record at `j` with a different term, truncate the log to length `j`
(`this.log.length = newEntryIndex`), set `commitIndex` to the new
`log.length - 1` and clamp `lastApplied` to `min(commitIndex, lastApplied)`;
then push the entry. -/
def stepEntry (j : Int) (e : LogRecord) (s : NodeState) : NodeState :=
  match jsIndex s.log j with
  | some r =>
    if r.term ≠ e.term then
      let newLog := s.log.take j.toNat
      let newCommit := (newLog.length : Int) - 1
      { s with log := newLog ++ [e],
               commitIndex := newCommit,
               lastApplied := min newCommit s.lastApplied }
    else { s with log := s.log ++ [e] }
  | none => { s with log := s.log ++ [e] }

/-- The whole `args.entries.forEach((e, i) => ...)` loop, with `i` the
running counter (so the target index is `prevLogIndex + i + 1`).  The
source guards the loop with `entries.length > 0`, which is equivalent since
iterating an empty list changes nothing. -/
def processEntries (prevLogIndex : Int) : List LogRecord → Nat → NodeState → NodeState
  | [], _, s => s
  | e :: rest, i, s =>
    processEntries prevLogIndex rest (i + 1) (stepEntry (prevLogIndex + i + 1) e s)

/-- The `args.term > this.currentTerm` block of `onAppendEntriesMessage`:
stop the timers of the old role, become Follower, adopt the sender as leader
for a request (`null` for a response), adopt the term, reset
`lastMessageNum`, re-arm the leader timer, and signal the web server.
`votedFor` is not touched by this block. -/
def appendEntriesTermBump (s : NodeState) (args : AppendEntriesArgs) :
    NodeState × List Effect :=
  if s.currentTerm < args.term then
    let stopEffs : List Effect :=
      match s.role with
      | Role.leader => [Effect.stopHeartbeatTimeout none]
      | Role.candidate => [Effect.stopHeartbeatTimeout none, Effect.stopElectionTimeout]
      | Role.follower => []
    ({ s with role := Role.follower,
              currentLeaderId := if args.isResponse then none else some args.senderId,
              currentTerm := args.term,
              lastMessageNum := -1 },
     stopEffs ++ [Effect.resetLeaderTimeout, Effect.disconnectWebSockets])
  else (s, [])

/-- The `case State.FOLLOWER` branch of `onAppendEntriesMessage`. -/
def followerAppendEntries (s : NodeState) (args : AppendEntriesArgs) :
    NodeState × List Effect :=
  if args.isResponse then (s, [])
  else if args.messageNum ≤ s.lastMessageNum then (s, [])
  else if args.term < s.currentTerm then
    (s, [Effect.sendReplicationResponse args.senderId s.currentTerm false
           s.commitIndex s.lastApplied])
  else if 0 ≤ args.prevLogIndex ∧ jsAt s.log args.prevLogIndex = none then
    (s, [Effect.sendReplicationResponse args.senderId s.currentTerm false
           s.commitIndex s.lastApplied,
         Effect.resetLeaderTimeout])
  else if s.currentLeaderId ≠ none ∧ s.currentLeaderId ≠ some args.senderId then
    (s, [])
  else
    let s1 := if s.currentLeaderId = none
              then { s with currentLeaderId := some args.senderId } else s
    let s2 := { s1 with lastMessageNum := args.messageNum }
    let s3 := processEntries args.prevLogIndex args.entries 0 s2
    let s4 := if s3.commitIndex < args.leaderCommit
              then { s3 with commitIndex := min args.leaderCommit ((s3.log.length : Int) - 1) }
              else s3
    let r := applyLogEntries s4
    (r.1, r.2 ++
      [Effect.sendReplicationResponse args.senderId r.1.currentTerm true
         r.1.commitIndex r.1.lastApplied,
       Effect.resetLeaderTimeout])

/-- The `case State.LEADER` branch of `onAppendEntriesMessage`. -/
def leaderAppendEntries (s : NodeState) (args : AppendEntriesArgs) :
    NodeState × List Effect :=
  if ¬ args.isResponse then
    (s, [Effect.sendReplicationResponse args.senderId s.currentTerm false
           s.commitIndex s.lastApplied])
  else if args.success then
    let ls := mapGetD s.lastSent args.senderId
    let s1 := { s with
      matchIndex := mapSet s.matchIndex args.senderId ls,
      nextIndex := mapSet s.nextIndex args.senderId (ls + 1),
      nodeIdToMessageNum := mapSet s.nodeIdToMessageNum args.senderId
        (mapGetD s.nodeIdToMessageNum args.senderId + 1) }
    let prevLogIndex := mapGetD s1.nextIndex args.senderId - 1
    let prevLogTerm := (jsIndex s1.log prevLogIndex).map (fun r => r.term)
    let sorted := jsSortInts (mapValues s1.matchIndex)
    -- `sortedIndexes[Math.floor(this.clusterSize / 2)]`.  In a properly
    -- initialized leader `matchIndex` has `clusterSize - 1` entries, so for
    -- `clusterSize ≥ 3` the access is in bounds; the fallback value (JS would
    -- produce `undefined` there) is never reached in the theorems below.
    let s2 := { s1 with commitIndex := sorted.getD (s.clusterSize / 2) s1.commitIndex }
    let missingEntries := jsSlice s2.log (mapGetD s2.nextIndex args.senderId)
    if 0 < missingEntries.length then
      let s3 := { s2 with lastSent := mapSet s2.lastSent args.senderId ((s2.log.length : Int) - 1) }
      let r := applyLogEntries s3
      (r.1, [Effect.sendReplicationTo args.senderId
               (mapGetD s2.nodeIdToMessageNum args.senderId) s2.currentTerm
               prevLogIndex prevLogTerm missingEntries s2.commitIndex,
             Effect.resetHeartbeatTimeout (some args.senderId)] ++ r.2)
    else
      let r := applyLogEntries s2
      (r.1, r.2)
  else
    ({ s with nextIndex := mapSet s.nextIndex args.senderId
                (mapGetD s.nextIndex args.senderId - 1) },
     [Effect.resetHeartbeatTimeout (some args.senderId)])

/-- The `case State.CANDIDATE` branch of `onAppendEntriesMessage`. -/
def candidateAppendEntries (s : NodeState) (args : AppendEntriesArgs) :
    NodeState × List Effect :=
  if args.isResponse then (s, [])
  else
    (s, [Effect.sendReplicationResponse args.senderId s.currentTerm false
           s.commitIndex s.lastApplied])

/-- `RaftNode.onAppendEntriesMessage(args)`: the term-bump block followed by
the `switch (this.state)` dispatch. -/
def onAppendEntriesMessage (s : NodeState) (args : AppendEntriesArgs) :
    NodeState × List Effect :=
  let b := appendEntriesTermBump s args
  let r :=
    match b.1.role with
    | Role.follower => followerAppendEntries b.1 args
    | Role.leader => leaderAppendEntries b.1 args
    | Role.candidate => candidateAppendEntries b.1 args
  (r.1, b.2 ++ r.2)

/-! ### RequestVote handling -/

/-- The `args.term > this.currentTerm` block of `onRequestVoteMessage`:
unlike the AppendEntries bump, it also clears `votedFor`. -/
def requestVoteTermBump (s : NodeState) (args : RequestVoteArgs) :
    NodeState × List Effect :=
  if s.currentTerm < args.term then
    let stopEffs : List Effect :=
      match s.role with
      | Role.leader => [Effect.stopHeartbeatTimeout none]
      | Role.candidate => [Effect.stopHeartbeatTimeout none, Effect.stopElectionTimeout]
      | Role.follower => []
    ({ s with role := Role.follower,
              votedFor := none,
              currentLeaderId := none,
              currentTerm := args.term,
              lastMessageNum := -1 },
     stopEffs ++ [Effect.resetLeaderTimeout, Effect.disconnectWebSockets])
  else (s, [])

/-- The `case State.FOLLOWER` branch of `onRequestVoteMessage`: grant when
`votedFor == null` and (`log.length < lastLogIndex + 1` or
`log[lastLogIndex]?.term == lastLogTerm`, JS loose equality). -/
def followerRequestVote (s : NodeState) (args : RequestVoteArgs) :
    NodeState × List Effect :=
  if args.isResponse then (s, [])
  else if s.votedFor = none ∧
      ((s.log.length : Int) < args.lastLogIndex + 1 ∨
        jsLooseEqOpt ((jsIndex s.log args.lastLogIndex).map (fun r => r.term))
          args.lastLogTerm) then
    ({ s with votedFor := some args.senderId },
     [Effect.sendVote args.senderId s.currentTerm true, Effect.resetLeaderTimeout])
  else
    (s, [Effect.sendVote args.senderId s.currentTerm false])

/-- The `case State.LEADER` branch of `onRequestVoteMessage`. -/
def leaderRequestVote (s : NodeState) (args : RequestVoteArgs) :
    NodeState × List Effect :=
  if args.isResponse then (s, [])
  else (s, [Effect.sendVote args.senderId s.currentTerm false])

/-- The `case State.CANDIDATE` branch of `onRequestVoteMessage`: every
granted response increments `votesGathered` (`++this.votesGathered`); when the
new tally exceeds `floor(clusterSize / 2)` the node becomes Leader,
reinitializes the per-peer maps, broadcasts an empty AppendEntries and
re-arms its timers. -/
def candidateRequestVote (s : NodeState) (args : RequestVoteArgs) :
    NodeState × List Effect :=
  if args.isResponse then
    if args.voteGranted then
      let s1 := { s with votesGathered := s.votesGathered + 1 }
      if s.clusterSize / 2 < s1.votesGathered then
        let s2 := { s1 with
          role := Role.leader,
          nodeIdToMessageNum := s1.nodeIdToMessageNum.map (fun p => (p.1, 0)),
          matchIndex := s.peers.foldl (fun m p => mapSet m p (-1)) s1.matchIndex,
          nextIndex := s.peers.foldl (fun m p => mapSet m p (s.log.length : Int)) s1.nextIndex,
          lastSent := s.peers.foldl (fun m p => mapSet m p ((s.log.length : Int) - 1)) s1.lastSent }
        (s2, [Effect.stopHeartbeatTimeout (some args.senderId),
              Effect.sendReplication 0 s.currentTerm ((s.log.length : Int) - 1)
                ((jsAt s.log (-1)).map (fun r => r.term)) [] s.commitIndex,
              Effect.resetHeartbeatTimeout none,
              Effect.stopElectionTimeout])
      else (s1, [Effect.stopHeartbeatTimeout (some args.senderId)])
    else (s, [Effect.stopHeartbeatTimeout (some args.senderId)])
  else
    (s, [Effect.sendVote args.senderId s.currentTerm false])

/-- `RaftNode.onRequestVoteMessage(args)`: the term-bump block followed by
the `switch (this.state)` dispatch. -/
def onRequestVoteMessage (s : NodeState) (args : RequestVoteArgs) :
    NodeState × List Effect :=
  let b := requestVoteTermBump s args
  let r :=
    match b.1.role with
    | Role.follower => followerRequestVote b.1 args
    | Role.leader => leaderRequestVote b.1 args
    | Role.candidate => candidateRequestVote b.1 args
  (r.1, b.2 ++ r.2)

/-! ### Elections -/

/-- `RaftNode.startNewElection()`: become Candidate, increment the term,
forget the leader, count the self vote, broadcast the vote request and
rearrange the timers.  The function contains no check of `minElectionDelay`
or of the time since the previous election. -/
def startNewElection (s : NodeState) : NodeState × List Effect :=
  ({ s with role := Role.candidate,
            currentTerm := s.currentTerm + 1,
            currentLeaderId := none,
            votesGathered := 1 },
   [Effect.sendElectionNotice (s.currentTerm + 1) ((s.log.length : Int) - 1)
      ((jsAt s.log (-1)).map (fun r => r.term)),
    Effect.stopLeaderTimeout,
    Effect.resetElectionTimeout,
    Effect.resetHeartbeatTimeout none])

/-! ### Specification-side descriptions (for comparison with the source) -/

/-- The effects the specification's applier prescribes for one index: invoke
the external state machine with the record's command and payload, then
fulfill the completion handle when the record carries one. -/
def effAt (log : List LogRecord) (i : Int) : List Effect :=
  match jsAt log i with
  | some e => Effect.invokeStateMachine i e.commandType e.payload ::
      (if e.callback then [Effect.fulfillCallback i] else [])
  | none => []

/-- The effect sequence the specification's applier prescribes for a list of
indices, in order. -/
def applierSpecEffects (log : List LogRecord) : List Int → List Effect
  | [] => []
  | i :: rest => effAt log i ++ applierSpecEffects log rest

/-! ### Concrete states and messages used as failing inputs and witnesses -/

/-- A log record with a given term, no callback attached. -/
def plainRec (t : Int) : LogRecord :=
  ⟨t, CommandType.newUser, 0, false⟩

/-- A 3-node cluster leader whose log has 11 entries, with peer C known to
match up to index 2 and index 10 just sent to peer B. -/
def c1State : NodeState :=
  { role := Role.leader, currentTerm := 1, votedFor := none, votesGathered := 0,
    log := List.replicate 11 (plainRec 1), commitIndex := 2, lastApplied := 2,
    nextIndex := [("B", 9), ("C", 3)], matchIndex := [("B", -1), ("C", 2)],
    lastSent := [("B", 10), ("C", 2)], nodeIdToMessageNum := [("B", 0), ("C", 0)],
    currentLeaderId := none, clusterSize := 3, lastMessageNum := -1,
    peers := ["B", "C"] }

/-- A successful AppendEntries response from peer B at the leader's term. -/
def c1Msg : AppendEntriesArgs :=
  { senderId := "B", term := 1, messageNum := 0, isResponse := true,
    prevLogIndex := 0, prevLogTerm := none, entries := [], leaderCommit := 0,
    success := true, commitIndex := 0, lastApplied := 0 }

/-- A 5-node cluster node that just won an election while holding 5 committed
and applied entries: `matchIndex` is freshly reinitialized to −1 for every
peer and `lastSent` to `log.length − 1 = 4`. -/
def c2State : NodeState :=
  { role := Role.leader, currentTerm := 2, votedFor := none, votesGathered := 0,
    log := List.replicate 5 (plainRec 1), commitIndex := 4, lastApplied := 4,
    nextIndex := [("B", 5), ("C", 5), ("D", 5), ("E", 5)],
    matchIndex := [("B", -1), ("C", -1), ("D", -1), ("E", -1)],
    lastSent := [("B", 4), ("C", 4), ("D", 4), ("E", 4)],
    nodeIdToMessageNum := [("B", 0), ("C", 0), ("D", 0), ("E", 0)],
    currentLeaderId := none, clusterSize := 5, lastMessageNum := -1,
    peers := ["B", "C", "D", "E"] }

/-- The first successful AppendEntries response after the election win. -/
def c2Msg : AppendEntriesArgs :=
  { senderId := "B", term := 2, messageNum := 0, isResponse := true,
    prevLogIndex := 0, prevLogTerm := none, entries := [], leaderCommit := 0,
    success := true, commitIndex := 0, lastApplied := 0 }

/-- A follower at term 1 that voted for X in term 1. -/
def c3State : NodeState :=
  { role := Role.follower, currentTerm := 1, votedFor := some "X", votesGathered := 0,
    log := [], commitIndex := -1, lastApplied := -1,
    nextIndex := [], matchIndex := [], lastSent := [], nodeIdToMessageNum := [],
    currentLeaderId := none, clusterSize := 3, lastMessageNum := -1,
    peers := ["L", "C"] }

/-- An AppendEntries request from a new leader L at the higher term 2. -/
def c3Msg : AppendEntriesArgs :=
  { senderId := "L", term := 2, messageNum := 0, isResponse := false,
    prevLogIndex := -1, prevLogTerm := none, entries := [], leaderCommit := -1,
    success := false, commitIndex := -1, lastApplied := -1 }

/-- A follower holding two records, of terms 1 and 2, the second uncommitted. -/
def c4WitState : NodeState :=
  { role := Role.follower, currentTerm := 3, votedFor := none, votesGathered := 0,
    log := [plainRec 1, plainRec 2], commitIndex := 0, lastApplied := 0,
    nextIndex := [], matchIndex := [], lastSent := [], nodeIdToMessageNum := [],
    currentLeaderId := some "L", clusterSize := 3, lastMessageNum := -1,
    peers := ["L", "C"] }

/-- A replacement entry of term 3, conflicting with the term-2 record. -/
def c4Entry : LogRecord := plainRec 3

/-- A follower at term 3 with a 5-entry log of terms 1,1,2,2,3 that has not
voted in term 4 — the configuration of scenario S6. -/
def c5State : NodeState :=
  { role := Role.follower, currentTerm := 3, votedFor := none, votesGathered := 0,
    log := [plainRec 1, plainRec 1, plainRec 2, plainRec 2, plainRec 3],
    commitIndex := -1, lastApplied := -1,
    nextIndex := [], matchIndex := [], lastSent := [], nodeIdToMessageNum := [],
    currentLeaderId := none, clusterSize := 3, lastMessageNum := -1,
    peers := ["B", "C"] }

/-- B's RequestVote of scenario S6: term 4, lastLogIndex 3, lastLogTerm 2. -/
def c5Msg : RequestVoteArgs :=
  { senderId := "B", term := 4, isResponse := false, lastLogIndex := 3,
    lastLogTerm := some 2, voteGranted := false }

/-- A follower whose single log record has term 1, with L as current leader. -/
def c6State : NodeState :=
  { role := Role.follower, currentTerm := 1, votedFor := none, votesGathered := 0,
    log := [plainRec 1], commitIndex := -1, lastApplied := -1,
    nextIndex := [], matchIndex := [], lastSent := [], nodeIdToMessageNum := [],
    currentLeaderId := some "L", clusterSize := 3, lastMessageNum := -1,
    peers := ["L", "C"] }

/-- An AppendEntries request whose `prevLogTerm` (2) differs from the term of
the follower's record at `prevLogIndex` 0 (which is 1). -/
def c6Msg : AppendEntriesArgs :=
  { senderId := "L", term := 1, messageNum := 0, isResponse := false,
    prevLogIndex := 0, prevLogTerm := some 2, entries := [], leaderCommit := -1,
    success := false, commitIndex := -1, lastApplied := -1 }

/-- An AppendEntries request referring to `prevLogIndex` 0 at a follower with
an empty log. -/
def c6WitMsg : AppendEntriesArgs :=
  { senderId := "L", term := 1, messageNum := 0, isResponse := false,
    prevLogIndex := 0, prevLogTerm := some 1, entries := [], leaderCommit := -1,
    success := false, commitIndex := -1, lastApplied := -1 }

/-- A follower with an empty log at term 1. -/
def c6WitState : NodeState :=
  { role := Role.follower, currentTerm := 1, votedFor := none, votesGathered := 0,
    log := [], commitIndex := -1, lastApplied := -1,
    nextIndex := [], matchIndex := [], lastSent := [], nodeIdToMessageNum := [],
    currentLeaderId := some "L", clusterSize := 3, lastMessageNum := -1,
    peers := ["L", "C"] }

/-- An ordinary in-order AppendEntries request from the current leader. -/
def c7WitMsg : AppendEntriesArgs :=
  { senderId := "L", term := 1, messageNum := 5, isResponse := false,
    prevLogIndex := -1, prevLogTerm := none, entries := [], leaderCommit := -1,
    success := false, commitIndex := -1, lastApplied := -1 }

/-- A follower that last accepted message number 3 from leader L at term 1. -/
def c7WitState : NodeState :=
  { role := Role.follower, currentTerm := 1, votedFor := none, votesGathered := 0,
    log := [], commitIndex := -1, lastApplied := -1,
    nextIndex := [], matchIndex := [], lastSent := [], nodeIdToMessageNum := [],
    currentLeaderId := some "L", clusterSize := 3, lastMessageNum := 3,
    peers := ["L", "C"] }

/-- A node with two committed but unapplied records, the first of which
carries a completion callback. -/
def c8WitState : NodeState :=
  { role := Role.leader, currentTerm := 1, votedFor := none, votesGathered := 0,
    log := [⟨1, CommandType.newUser, 5, true⟩, ⟨1, CommandType.newBid, 7, false⟩],
    commitIndex := 1, lastApplied := -1,
    nextIndex := [], matchIndex := [], lastSent := [], nodeIdToMessageNum := [],
    currentLeaderId := none, clusterSize := 3, lastMessageNum := -1,
    peers := ["B", "C"] }

/-- A candidate in a 5-node cluster holding only its self vote. -/
def c9State : NodeState :=
  { role := Role.candidate, currentTerm := 3, votedFor := some "A", votesGathered := 1,
    log := [], commitIndex := -1, lastApplied := -1,
    nextIndex := [], matchIndex := [], lastSent := [],
    nodeIdToMessageNum := [("B", 7), ("C", 7), ("D", 7), ("E", 7)],
    currentLeaderId := none, clusterSize := 5, lastMessageNum := -1,
    peers := ["B", "C", "D", "E"] }

/-- A granted RequestVote response from peer B at the candidate's term. -/
def c9Msg : RequestVoteArgs :=
  { senderId := "B", term := 3, isResponse := true, lastLogIndex := 0,
    lastLogTerm := none, voteGranted := true }

/-- A freshly started follower (empty log, term 0). -/
def c10State : NodeState :=
  { role := Role.follower, currentTerm := 0, votedFor := none, votesGathered := 0,
    log := [], commitIndex := -1, lastApplied := -1,
    nextIndex := [], matchIndex := [], lastSent := [], nodeIdToMessageNum := [],
    currentLeaderId := none, clusterSize := 3, lastMessageNum := -1,
    peers := ["B", "C"] }

/-- B's RequestVote at the follower's own current term 3. -/
def c5WitMsg : RequestVoteArgs :=
  { senderId := "B", term := 3, isResponse := false, lastLogIndex := 3,
    lastLogTerm := some 2, voteGranted := false }

/-- The scenario-S6 follower after the term bump to 4: log length 5, last
term 3, no vote cast in term 4, and — unlike `c5State` — the record at
index 3 has term 3, different from the candidate's `lastLogTerm` 2. -/
def c5RefuseState : NodeState :=
  { role := Role.follower, currentTerm := 4, votedFor := none, votesGathered := 0,
    log := [plainRec 1, plainRec 1, plainRec 2, plainRec 3, plainRec 3],
    commitIndex := -1, lastApplied := -1,
    nextIndex := [], matchIndex := [], lastSent := [], nodeIdToMessageNum := [],
    currentLeaderId := none, clusterSize := 3, lastMessageNum := -1,
    peers := ["B", "C"] }

/-- B's scenario-S6 RequestVote at term 4: lastLogIndex 3, lastLogTerm 2. -/
def c5RefuseMsg : RequestVoteArgs :=
  { senderId := "B", term := 4, isResponse := false, lastLogIndex := 3,
    lastLogTerm := some 2, voteGranted := false }

/-- A stale AppendEntries request: message number 2 ≤ the follower's
`lastMessageNum` 3. -/
def c7StaleMsg : AppendEntriesArgs :=
  { senderId := "L", term := 1, messageNum := 2, isResponse := false,
    prevLogIndex := -1, prevLogTerm := none, entries := [], leaderCommit := -1,
    success := false, commitIndex := -1, lastApplied := -1 }

/-! ## Helper lemmas -/

theorem applyLogEntry_shape (s : NodeState) (i : Int) :
    (applyLogEntry s i).1 = { s with log := (applyLogEntry s i).1.log } := by
  unfold applyLogEntry
  cases h : jsAt s.log i with
  | none => rfl
  | some e =>
    simp only [h]
    split <;> rfl

theorem applyRange_shape (is : List Int) : ∀ s : NodeState,
    (applyRange s is).1 = { s with log := (applyRange s is).1.log } := by
  induction is with
  | nil => intro s; rfl
  | cons i rest ih =>
    intro s
    simp only [applyRange]
    rw [ih (applyLogEntry s i).1, applyLogEntry_shape s i]

theorem applyLogEntries_shape (s : NodeState) :
    (applyLogEntries s).1 = { s with log := (applyLogEntries s).1.log,
                                     lastApplied := (applyLogEntries s).1.lastApplied } := by
  unfold applyLogEntries
  split
  · simp only
    rw [applyRange_shape]
  · rfl

theorem stepEntry_shape (j : Int) (e : LogRecord) (s : NodeState) :
    stepEntry j e s = { s with log := (stepEntry j e s).log,
                               commitIndex := (stepEntry j e s).commitIndex,
                               lastApplied := (stepEntry j e s).lastApplied } := by
  unfold stepEntry
  cases h : jsIndex s.log j with
  | none => rfl
  | some r =>
    simp only [h]
    split <;> rfl

theorem processEntries_shape (p : Int) (es : List LogRecord) : ∀ (i : Nat) (s : NodeState),
    processEntries p es i s =
      { s with log := (processEntries p es i s).log,
               commitIndex := (processEntries p es i s).commitIndex,
               lastApplied := (processEntries p es i s).lastApplied } := by
  induction es with
  | nil => intro i s; rfl
  | cons e rest ih =>
    intro i s
    simp only [processEntries]
    rw [ih (i + 1) (stepEntry (p + i + 1) e s), stepEntry_shape (p + i + 1) e s]

theorem onAppendEntries_follower_noBump (s : NodeState) (args : AppendEntriesArgs)
    (hrole : s.role = Role.follower) (hterm : args.term ≤ s.currentTerm) :
    onAppendEntriesMessage s args = followerAppendEntries s args := by
  unfold onAppendEntriesMessage appendEntriesTermBump
  simp [not_lt.2 hterm, hrole]

theorem onRequestVote_candidate_noBump (s : NodeState) (args : RequestVoteArgs)
    (hrole : s.role = Role.candidate) (hterm : args.term ≤ s.currentTerm) :
    onRequestVoteMessage s args = candidateRequestVote s args := by
  unfold onRequestVoteMessage requestVoteTermBump
  simp [not_lt.2 hterm, hrole]

theorem onRequestVote_follower_noBump (s : NodeState) (args : RequestVoteArgs)
    (hrole : s.role = Role.follower) (hterm : args.term ≤ s.currentTerm) :
    onRequestVoteMessage s args = followerRequestVote s args := by
  unfold onRequestVoteMessage requestVoteTermBump
  simp [not_lt.2 hterm, hrole]

theorem processEntries_lastMessageNum (p : Int) (es : List LogRecord) (i : Nat)
    (s : NodeState) :
    (processEntries p es i s).lastMessageNum = s.lastMessageNum := by
  rw [processEntries_shape]

theorem applyLogEntries_lastMessageNum (s : NodeState) :
    (applyLogEntries s).1.lastMessageNum = s.lastMessageNum := by
  rw [applyLogEntries_shape]

theorem applyLogEntries_commitIndex (s : NodeState) :
    (applyLogEntries s).1.commitIndex = s.commitIndex := by
  rw [applyLogEntries_shape]

theorem applyLogEntries_lastApplied (s : NodeState) :
    (applyLogEntries s).1.lastApplied =
      if s.lastApplied < s.commitIndex then s.commitIndex else s.lastApplied := by
  unfold applyLogEntries
  split <;> simp [*]

theorem applyLogEntries_noop (t : NodeState) (h : ¬ t.lastApplied < t.commitIndex) :
    applyLogEntries t = (t, []) := by
  unfold applyLogEntries
  rw [if_neg h]

theorem jsIndex_eq_some {α : Type} (l : List α) (j : Int) (r : α) :
    jsIndex l j = some r ↔ 0 ≤ j ∧ l[j.toNat]? = some r := by
  unfold jsIndex
  split <;> simp [*]

theorem jsAt_nonneg {α : Type} (l : List α) (i : Int) (h : 0 ≤ i) :
    jsAt l i = l[i.toNat]? := by
  unfold jsAt
  rw [if_pos h]

theorem jsLooseEqOpt_some_eq (o : Option Int) (t : Int) :
    jsLooseEqOpt o (some t) = true ↔ o = some t := by
  cases o <;> simp [jsLooseEqOpt]

theorem stepEntry_getElem_lt (j : Int) (e : LogRecord) (s : NodeState) (k : Nat)
    (hk : (k : Int) < j) (hlen : k < s.log.length) :
    (stepEntry j e s).log[k]? = s.log[k]? ∧ k < (stepEntry j e s).log.length := by
  unfold stepEntry
  cases hj : jsIndex s.log j with
  | none =>
    simp only [hj]
    refine ⟨List.getElem?_append_left hlen, ?_⟩
    simp only [List.length_append, List.length_cons, List.length_nil]
    omega
  | some r =>
    obtain ⟨hj0, hjget⟩ := (jsIndex_eq_some s.log j r).1 hj
    have hjlen : j.toNat < s.log.length := (List.getElem?_eq_some.1 hjget).1
    have hkj : k < j.toNat := by omega
    simp only [hj]
    split
    · have htl : (s.log.take j.toNat).length = j.toNat := by
        rw [List.length_take]; omega
      constructor
      · rw [List.getElem?_append_left (by omega), List.getElem?_take]
        simp [hkj]
      · simp only [List.length_append, htl, List.length_cons, List.length_nil]
        omega
    · refine ⟨List.getElem?_append_left hlen, ?_⟩
      simp only [List.length_append, List.length_cons, List.length_nil]
      omega

theorem processEntries_getElem_le (p : Int) (es : List LogRecord) :
    ∀ (i : Nat) (s : NodeState) (k : Nat), (k : Int) ≤ p + i → k < s.log.length →
      (processEntries p es i s).log[k]? = s.log[k]? := by
  induction es with
  | nil => intro i s k _ _; rfl
  | cons e rest ih =>
    intro i s k hk hlen
    have hstep := stepEntry_getElem_lt (p + i + 1) e s k (by omega) hlen
    simp only [processEntries]
    rw [ih (i + 1) (stepEntry (p + i + 1) e s) k (by push_cast; omega) hstep.2,
        hstep.1]

theorem intRangeAux_mem (n : Nat) : ∀ (lo i : Int),
    i ∈ intRangeAux lo n ↔ lo ≤ i ∧ i < lo + n := by
  induction n with
  | zero => intro lo i; simp [intRangeAux]
  | succ m ih =>
    intro lo i
    simp only [intRangeAux, List.mem_cons, ih (lo + 1) i]
    push_cast
    omega

theorem intRange_mem (lo hi i : Int) :
    i ∈ intRange lo hi ↔ lo ≤ i ∧ i ≤ hi := by
  unfold intRange
  rw [intRangeAux_mem]
  omega

theorem intRangeAux_pairwise (n : Nat) : ∀ lo : Int,
    (intRangeAux lo n).Pairwise (fun a b => a ≠ b) := by
  induction n with
  | zero => intro lo; simp [intRangeAux]
  | succ m ih =>
    intro lo
    simp only [intRangeAux, List.pairwise_cons]
    refine ⟨fun b hb => ?_, ih (lo + 1)⟩
    have := (intRangeAux_mem m (lo + 1) b).1 hb
    omega

theorem intRange_pairwise (lo hi : Int) :
    (intRange lo hi).Pairwise (fun a b => a ≠ b) :=
  intRangeAux_pairwise _ lo

theorem clear_of_not_callback (r : LogRecord) (h : r.callback = false) :
    { r with callback := false } = r := by
  cases r
  subst h
  rfl

theorem applyLogEntry_effects (s : NodeState) (i : Int) :
    (applyLogEntry s i).2 = effAt s.log i := by
  unfold applyLogEntry effAt
  cases h : jsAt s.log i with
  | none => rfl
  | some e =>
    simp only [h]
    split <;> simp [*]

theorem applyLogEntry_log (s : NodeState) (i : Int) (hi : 0 ≤ i) (k : Nat) :
    (applyLogEntry s i).1.log[k]? =
      (s.log[k]?).map
        (fun r => if (k : Int) = i then { r with callback := false } else r) := by
  unfold applyLogEntry
  cases h : jsAt s.log i with
  | none =>
    simp only [h]
    by_cases hk : (k : Int) = i
    · have hkn : k = i.toNat := by omega
      rw [jsAt_nonneg s.log i hi] at h
      subst hkn
      simp [h]
    · cases ho : s.log[k]? <;> simp [hk]
  | some e =>
    rw [jsAt_nonneg s.log i hi] at h
    have hilen : i.toNat < s.log.length := (List.getElem?_eq_some.1 h).1
    simp only [jsAt_nonneg s.log i hi, h]
    by_cases hcb : e.callback
    · rw [if_pos hcb]
      dsimp only
      by_cases hk : (k : Int) = i
      · have hkn : k = i.toNat := by omega
        subst hkn
        rw [List.getElem?_set_eq_of_lt _ hilen, h]
        simp [hk]
      · have hkn : i.toNat ≠ k := by omega
        rw [List.getElem?_set_ne hkn]
        cases ho : s.log[k]? <;> simp [hk]
    · rw [if_neg hcb]
      dsimp only
      by_cases hk : (k : Int) = i
      · have hkn : k = i.toNat := by omega
        subst hkn
        rw [h]
        simp [hk, clear_of_not_callback e (by simpa using hcb)]
      · cases ho : s.log[k]? <;> simp [hk]

theorem effAt_congr (l1 l2 : List LogRecord) (i : Int) (h : jsAt l1 i = jsAt l2 i) :
    effAt l1 i = effAt l2 i := by
  unfold effAt
  rw [h]

theorem applierSpecEffects_congr (is : List Int) : ∀ (l1 l2 : List LogRecord),
    (∀ i ∈ is, jsAt l1 i = jsAt l2 i) →
    applierSpecEffects l1 is = applierSpecEffects l2 is := by
  induction is with
  | nil => intro l1 l2 _; rfl
  | cons i rest ih =>
    intro l1 l2 h
    simp only [applierSpecEffects]
    rw [effAt_congr l1 l2 i (h i (by simp)),
        ih l1 l2 (fun b hb => h b (by simp [hb]))]

theorem applyRange_spec (is : List Int) : ∀ (s : NodeState),
    (∀ i ∈ is, 0 ≤ i) → is.Pairwise (fun a b => a ≠ b) →
    ((applyRange s is).2 = applierSpecEffects s.log is ∧
     (∀ k : Nat, (applyRange s is).1.log[k]? =
        (s.log[k]?).map
          (fun r => if (k : Int) ∈ is then { r with callback := false } else r))) := by
  induction is with
  | nil =>
    intro s _ _
    refine ⟨rfl, fun k => ?_⟩
    show s.log[k]? = _
    cases ho : s.log[k]? <;> simp
  | cons i rest ih =>
    intro s hpos hpw
    have hi0 : 0 ≤ i := hpos i (by simp)
    have hrestpos : ∀ b ∈ rest, 0 ≤ b := fun b hb => hpos b (by simp [hb])
    rw [List.pairwise_cons] at hpw
    obtain ⟨hnotin, hpwrest⟩ := hpw
    have hstep := ih (applyLogEntry s i).1 hrestpos hpwrest
    have hagree : ∀ b ∈ rest, jsAt (applyLogEntry s i).1.log b = jsAt s.log b := by
      intro b hb
      have hb0 : 0 ≤ b := hrestpos b hb
      rw [jsAt_nonneg _ b hb0, jsAt_nonneg _ b hb0,
          applyLogEntry_log s i hi0 b.toNat]
      have hbt : ((b.toNat : Nat) : Int) = b := Int.toNat_of_nonneg hb0
      have hbne : b ≠ i := fun hbeq => (hnotin b hb) hbeq.symm
      simp only [hbt]
      cases ho : s.log[b.toNat]? <;> simp [hbne]
    constructor
    · show (applyLogEntry s i).2 ++ (applyRange (applyLogEntry s i).1 rest).2 = _
      rw [applyLogEntry_effects s i, hstep.1,
          applierSpecEffects_congr rest _ _ hagree]
      rfl
    · intro k
      show (applyRange (applyLogEntry s i).1 rest).1.log[k]? = _
      rw [hstep.2 k, applyLogEntry_log s i hi0 k, Option.map_map]
      cases ho : s.log[k]? with
      | none => rfl
      | some r =>
        by_cases hki : (k : Int) = i <;> by_cases hkr : (k : Int) ∈ rest <;>
          simp [hki, hkr]

/-! ## Theorems settling the claims -/

/-- Claim C1: False on the source.  The leader recomputes `commitIndex` with
`[...matchIndex.values()].sort()`, the default JS sort, which compares the
values as strings.  At `c1State` the peer matchIndex values after the update
are `[10, 2]`; their numerical sort puts 10 at position
`floor(clusterSize / 2) = 1`, but the code sets `commitIndex` to 2 because
the string `"10"` sorts before `"2"`. -/
theorem commitIndexUsesStringSort :
    (onAppendEntriesMessage c1State c1Msg).1.commitIndex = 2 ∧
    mapValues (onAppendEntriesMessage c1State c1Msg).1.matchIndex = [10, 2] ∧
    (numericSortInts
        (mapValues (onAppendEntriesMessage c1State c1Msg).1.matchIndex)).getD
      (c1State.clusterSize / 2) 0 = 10 := by decide

/-- Claim C2: False on the source.  A 5-node leader that already had
`commitIndex = 4` processes the first successful AppendEntries response after
its election win: the recomputation over the freshly reinitialized
`matchIndex` values `[4, −1, −1, −1]` sets `commitIndex` to −1, a decrease
with no log truncation (the log is unchanged), while `lastApplied` stays 4. -/
theorem commitIndexDecreasesOnFreshLeader :
    c2State.commitIndex = 4 ∧
    (onAppendEntriesMessage c2State c2Msg).1.commitIndex = -1 ∧
    (onAppendEntriesMessage c2State c2Msg).1.log = c2State.log := by decide

/-- Claim C3, counterexample: a follower that voted for X at term 1 receives
an AppendEntries request at the higher term 2; after the whole handler
`votedFor` is still X, not none — the AppendEntries term bump does not reset
`votedFor`. -/
theorem votedForSurvivesAppendEntriesBump :
    c3State.currentTerm < c3Msg.term ∧
    (onAppendEntriesMessage c3State c3Msg).1.votedFor = some "X" := by decide

/-- Claim C3, as amended: on an inbound AppendEntries message whose term is
strictly greater than `currentTerm`, the term-bump block (source lines
377–399) sets the role to Follower, adopts the term, sets `currentLeaderId`
to the sender for a request and to none for a response, resets
`lastMessageNum` to −1 and re-arms the leader timer — and leaves `votedFor`
unchanged. -/
theorem appendEntriesTermBumpState (s : NodeState) (args : AppendEntriesArgs)
    (h : s.currentTerm < args.term) :
    (appendEntriesTermBump s args).1.role = Role.follower ∧
    (appendEntriesTermBump s args).1.currentTerm = args.term ∧
    (appendEntriesTermBump s args).1.currentLeaderId =
      (if args.isResponse then none else some args.senderId) ∧
    (appendEntriesTermBump s args).1.lastMessageNum = -1 ∧
    Effect.resetLeaderTimeout ∈ (appendEntriesTermBump s args).2 ∧
    (appendEntriesTermBump s args).1.votedFor = s.votedFor := by
  unfold appendEntriesTermBump
  cases s.role <;> simp [h]

/-- Witness for the amended claim C3 at a concrete input. -/
theorem appendEntriesTermBumpStateWitness :
    c3State.currentTerm < c3Msg.term ∧
    ((appendEntriesTermBump c3State c3Msg).1.currentTerm = c3Msg.term ∧
     (appendEntriesTermBump c3State c3Msg).1.votedFor = c3State.votedFor) := by
  have h := appendEntriesTermBumpState c3State c3Msg (by decide)
  exact ⟨by decide, h.2.1, h.2.2.2.2.2⟩

/-- Claim C4: the conflict-repair loop.  First conjunct: records at indices
up to `prevLogIndex` (below every target index `j = prevLogIndex + i + 1`)
are never reordered or mutated by the whole loop.  Second conjunct: one
iteration at target index `j` whose existing record disagrees on the term
truncates the log to length `j`, clamps `commitIndex` to the new
`length(log) − 1 = j − 1`, clamps `lastApplied` to `min commitIndex
lastApplied`, and only then appends the entry. -/
theorem conflictRepairTruncatesBeforeAppend (p : Int) (es : List LogRecord)
    (s : NodeState) :
    (∀ k : Nat, (k : Int) ≤ p → k < s.log.length →
        (processEntries p es 0 s).log[k]? = s.log[k]?) ∧
    (∀ (j : Int) (e r : LogRecord), jsIndex s.log j = some r → r.term ≠ e.term →
        stepEntry j e s =
          { s with log := s.log.take j.toNat ++ [e],
                   commitIndex := j - 1,
                   lastApplied := min (j - 1) s.lastApplied }) := by
  constructor
  · intro k hk hlen
    exact processEntries_getElem_le p es 0 s k (by push_cast; omega) hlen
  · intro j e r hj hne
    obtain ⟨hj0, hjget⟩ := (jsIndex_eq_some s.log j r).1 hj
    have hjlen : j.toNat < s.log.length := (List.getElem?_eq_some.1 hjget).1
    unfold stepEntry
    simp only [hj]
    rw [if_pos hne]
    have hC : ((s.log.take j.toNat).length : Int) - 1 = j - 1 := by
      rw [List.length_take]
      push_cast [Nat.min_def]
      split <;> omega
    rw [hC]

/-- Witness for claim C4 at a concrete input: a conflicting entry of term 3
at target index 1 of a log with terms 1, 2. -/
theorem conflictRepairWitness :
    (processEntries 0 [c4Entry] 0 c4WitState).log[0]? = c4WitState.log[0]? ∧
    stepEntry 1 c4Entry c4WitState =
      { c4WitState with log := c4WitState.log.take 1 ++ [c4Entry],
                        commitIndex := 0,
                        lastApplied := min 0 c4WitState.lastApplied } := by
  constructor
  · exact (conflictRepairTruncatesBeforeAppend 0 [c4Entry] c4WitState).1 0
      (by decide) (by decide)
  · exact (conflictRepairTruncatesBeforeAppend 0 [c4Entry] c4WitState).2 1
      c4Entry (plainRec 2) (by decide) (by decide)

/-- Claim C5, counterexample to the scenario-S6 sentence: a follower with log
length 5, last term 3, that has not voted in term 4, receives B's RequestVote
(term 4, lastLogIndex 3, lastLogTerm 2) and GRANTS the vote, because its
record at index 3 happens to have term 2 — the source compares
`log[lastLogIndex].term` with `lastLogTerm` instead of comparing the
up-to-dateness of the last entries. -/
theorem staleLogVoteGranted :
    c5State.log.length = 5 ∧
    (jsAt c5State.log (-1)).map (fun r => r.term) = some 3 ∧
    c5State.votedFor = none ∧
    (onRequestVoteMessage c5State c5Msg).1.votedFor = some "B" ∧
    Effect.sendVote "B" 4 true ∈ (onRequestVoteMessage c5State c5Msg).2 := by decide

/-- Claim C5, as amended (first sentence of the claim, which matches the
source): a follower receiving a RequestVote request at its current term
grants the vote — records `votedFor := sender`, sends voteGranted=true and
re-arms the leader timer, with no other state change — if `votedFor` is none
and either its log has fewer entries than `lastLogIndex + 1` or its entry at
`lastLogIndex` has term equal to `lastLogTerm`; otherwise it replies
voteGranted=false and changes nothing.  The S6 instance refuses only when
the entry at index 3 has a term different from 2 (see the witness). -/
theorem followerVoteGrantIff (s : NodeState) (args : RequestVoteArgs)
    (hrole : s.role = Role.follower) (hreq : args.isResponse = false)
    (hterm : args.term = s.currentTerm) (t : Int) (hllt : args.lastLogTerm = some t) :
    ((s.votedFor = none ∧
       ((s.log.length : Int) < args.lastLogIndex + 1 ∨
        (jsIndex s.log args.lastLogIndex).map (fun r => r.term) = some t)) →
      onRequestVoteMessage s args =
        ({ s with votedFor := some args.senderId },
         [Effect.sendVote args.senderId s.currentTerm true,
          Effect.resetLeaderTimeout])) ∧
    (¬ (s.votedFor = none ∧
       ((s.log.length : Int) < args.lastLogIndex + 1 ∨
        (jsIndex s.log args.lastLogIndex).map (fun r => r.term) = some t)) →
      onRequestVoteMessage s args =
        (s, [Effect.sendVote args.senderId s.currentTerm false])) := by
  have hco : (s.votedFor = none ∧
      ((s.log.length : Int) < args.lastLogIndex + 1 ∨
        jsLooseEqOpt ((jsIndex s.log args.lastLogIndex).map (fun r => r.term))
          (some t) = true)) ↔
      (s.votedFor = none ∧
      ((s.log.length : Int) < args.lastLogIndex + 1 ∨
        (jsIndex s.log args.lastLogIndex).map (fun r => r.term) = some t)) := by
    rw [jsLooseEqOpt_some_eq]
  constructor
  · intro hg
    rw [onRequestVote_follower_noBump s args hrole (le_of_eq hterm)]
    unfold followerRequestVote
    rw [hllt, if_neg (by simp [hreq]), if_pos (hco.2 hg)]
  · intro hng
    rw [onRequestVote_follower_noBump s args hrole (le_of_eq hterm)]
    unfold followerRequestVote
    rw [hllt, if_neg (by simp [hreq]), if_neg (fun hc => hng (hco.1 hc))]

/-- Witness for the amended claim C5, exercising both directions: the S6
follower whose record at index 3 has term 2 grants B's vote, while the S6
follower whose record at index 3 has term 3 ≠ 2 refuses it with a
voteGranted=false reply and no state change. -/
theorem followerVoteGrantIffWitness :
    onRequestVoteMessage c5State c5WitMsg =
      ({ c5State with votedFor := some "B" },
       [Effect.sendVote "B" 3 true, Effect.resetLeaderTimeout]) ∧
    onRequestVoteMessage c5RefuseState c5RefuseMsg =
      (c5RefuseState, [Effect.sendVote "B" 4 false]) := by
  constructor
  · exact (followerVoteGrantIff c5State c5WitMsg (by decide) (by decide) (by decide)
      2 (by decide)).1 (by decide)
  · exact (followerVoteGrantIff c5RefuseState c5RefuseMsg (by decide) (by decide)
      (by decide) 2 (by decide)).2 (by decide)

/-- Claim C6, counterexample: an AppendEntries request at the current term
whose `prevLogTerm` (2) differs from the term of the follower's record at
`prevLogIndex` (1) is ACCEPTED with a success=true reply — the source checks
only the presence of the record at `prevLogIndex`, never its term. -/
theorem prevTermMismatchAccepted :
    (jsAt c6State.log 0).map (fun r => r.term) = some 1 ∧
    c6Msg.prevLogTerm = some 2 ∧
    (onAppendEntriesMessage c6State c6Msg).2 =
      [Effect.sendReplicationResponse "L" 1 true (-1) (-1),
       Effect.resetLeaderTimeout] := by decide

/-- Claim C6, as amended: on an AppendEntries request at the current term
with `prevLogIndex ≥ 0` such that the follower's log has NO entry at
`prevLogIndex` (the only condition the source checks), the follower replies
success=false, re-arms the leader timer, and its whole state — in particular
log, commitIndex and lastApplied — is unchanged. -/
theorem missingPrevEntryRejected (s : NodeState) (args : AppendEntriesArgs)
    (hrole : s.role = Role.follower) (hreq : args.isResponse = false)
    (hterm : args.term = s.currentTerm)
    (hmsg : s.lastMessageNum < args.messageNum)
    (hprev : 0 ≤ args.prevLogIndex)
    (hmiss : jsAt s.log args.prevLogIndex = none) :
    onAppendEntriesMessage s args =
      (s, [Effect.sendReplicationResponse args.senderId s.currentTerm false
             s.commitIndex s.lastApplied,
           Effect.resetLeaderTimeout]) := by
  rw [onAppendEntries_follower_noBump s args hrole (le_of_eq hterm)]
  have h2 : ¬ args.messageNum ≤ s.lastMessageNum := not_le.2 hmsg
  have h3 : ¬ args.term < s.currentTerm := by omega
  unfold followerAppendEntries
  simp [hreq, h2, h3, hprev, hmiss]

/-- Witness for the amended claim C6: a request with `prevLogIndex = 0` at a
follower with an empty log. -/
theorem missingPrevEntryRejectedWitness :
    onAppendEntriesMessage c6WitState c6WitMsg =
      (c6WitState, [Effect.sendReplicationResponse "L" 1 false (-1) (-1),
                    Effect.resetLeaderTimeout]) :=
  missingPrevEntryRejected c6WitState c6WitMsg (by decide) (by decide) (by decide)
    (by decide) (by decide) (by decide)

/-- Claim C7: per-term FIFO.  A follower ignores an AppendEntries request
with `messageNum ≤ lastMessageNum` — no state change and no effect at all —
and every accepted request (one answered with a success=true replication
response) sets `lastMessageNum` to the request's `messageNum`, which is
strictly greater than the previous `lastMessageNum`. -/
theorem fifoMessageNum (s : NodeState) (args : AppendEntriesArgs)
    (hrole : s.role = Role.follower) (hreq : args.isResponse = false)
    (hterm : args.term ≤ s.currentTerm) :
    (args.messageNum ≤ s.lastMessageNum → onAppendEntriesMessage s args = (s, [])) ∧
    (∀ c la, Effect.sendReplicationResponse args.senderId s.currentTerm true c la ∈
        (onAppendEntriesMessage s args).2 →
      (onAppendEntriesMessage s args).1.lastMessageNum = args.messageNum ∧
      s.lastMessageNum < args.messageNum) := by
  rw [onAppendEntries_follower_noBump s args hrole hterm]
  constructor
  · intro hstale
    unfold followerAppendEntries
    simp [hreq, hstale]
  · intro c la hmem
    by_cases hstale : args.messageNum ≤ s.lastMessageNum
    · unfold followerAppendEntries at hmem
      simp [hreq, hstale] at hmem
    · by_cases htlt : args.term < s.currentTerm
      · unfold followerAppendEntries at hmem
        simp [hreq, hstale, htlt] at hmem
      · by_cases hprev : 0 ≤ args.prevLogIndex ∧ jsAt s.log args.prevLogIndex = none
        · unfold followerAppendEntries at hmem
          simp [hreq, hstale, htlt, hprev] at hmem
        · by_cases hlead : s.currentLeaderId ≠ none ∧
              s.currentLeaderId ≠ some args.senderId
          · unfold followerAppendEntries at hmem
            simp [hreq, hstale, htlt, hprev, hlead] at hmem
          · refine ⟨?_, not_le.1 hstale⟩
            unfold followerAppendEntries
            simp [hreq, hstale, htlt, hprev, hlead,
              applyLogEntries_lastMessageNum, processEntries_lastMessageNum,
              apply_ite NodeState.lastMessageNum]

/-- Witness for claim C7: a stale request (messageNum 2 ≤ 3) is dropped with
no state change and no reply; an in-order request (messageNum 5 > 3) is
accepted and records messageNum 5. -/
theorem fifoMessageNumWitness :
    onAppendEntriesMessage c7WitState c7StaleMsg = (c7WitState, []) ∧
    ((onAppendEntriesMessage c7WitState c7WitMsg).1.lastMessageNum = c7WitMsg.messageNum ∧
     c7WitState.lastMessageNum < c7WitMsg.messageNum) := by
  constructor
  · exact (fifoMessageNum c7WitState c7StaleMsg (by decide) (by decide) (by decide)).1
      (by decide)
  · exact (fifoMessageNum c7WitState c7WitMsg (by decide) (by decide) (by decide)).2
      (-1) (-1) (by decide)

/-- Claim C8: the applier.  When `commitIndex > lastApplied` the applier (i)
sets `lastApplied` to `commitIndex`, (ii) produces exactly the effect
sequence the specification prescribes for the indices `lastApplied + 1 ..
commitIndex` in increasing order — for each such index one state-machine
invocation with the record's command and payload followed, when the record
carries a completion callback, by its fulfillment — and (iii) clears the
callback of exactly the applied records, mutating nothing else in the log.
When `commitIndex ≤ lastApplied` it is a strict no-op, and a second run
immediately after any run is a no-op (idempotence). -/
theorem applierBatch (s : NodeState) (h0 : -1 ≤ s.lastApplied)
    (hlen : s.commitIndex < (s.log.length : Int)) :
    (s.lastApplied < s.commitIndex →
      ((applyLogEntries s).1.lastApplied = s.commitIndex ∧
       (applyLogEntries s).2 =
         applierSpecEffects s.log (intRange (s.lastApplied + 1) s.commitIndex) ∧
       (∀ i ∈ intRange (s.lastApplied + 1) s.commitIndex, ∃ e,
          jsAt s.log i = some e ∧
          effAt s.log i =
            Effect.invokeStateMachine i e.commandType e.payload ::
              (if e.callback then [Effect.fulfillCallback i] else [])) ∧
       (∀ k : Nat, (applyLogEntries s).1.log[k]? =
          (s.log[k]?).map
            (fun r =>
              if s.lastApplied + 1 ≤ (k : Int) ∧ (k : Int) ≤ s.commitIndex then
                { r with callback := false } else r)))) ∧
    (s.commitIndex ≤ s.lastApplied → applyLogEntries s = (s, [])) ∧
    applyLogEntries (applyLogEntries s).1 = ((applyLogEntries s).1, []) := by
  have hpos : ∀ i ∈ intRange (s.lastApplied + 1) s.commitIndex, 0 ≤ i := by
    intro i hi
    have := (intRange_mem _ _ i).1 hi
    omega
  have hspec := applyRange_spec (intRange (s.lastApplied + 1) s.commitIndex) s hpos
    (intRange_pairwise _ _)
  refine ⟨?_, ?_, ?_⟩
  · intro hlt
    refine ⟨?_, ?_, ?_, ?_⟩
    · rw [applyLogEntries_lastApplied, if_pos hlt]
    · show (applyLogEntries s).2 = _
      unfold applyLogEntries
      rw [if_pos hlt]
      exact hspec.1
    · intro i hi
      have hmem := (intRange_mem _ _ i).1 hi
      have hit : i.toNat < s.log.length := by omega
      refine ⟨s.log[i.toNat], ?_, ?_⟩
      · rw [jsAt_nonneg _ i (by omega)]
        exact List.getElem?_eq_getElem hit
      · unfold effAt
        rw [jsAt_nonneg _ i (by omega), List.getElem?_eq_getElem hit]
    · intro k
      have hlog : (applyLogEntries s).1.log =
          (applyRange s (intRange (s.lastApplied + 1) s.commitIndex)).1.log := by
        unfold applyLogEntries
        rw [if_pos hlt]
      rw [hlog, hspec.2 k]
      cases ho : s.log[k]? with
      | none => rfl
      | some r =>
        simp [intRange_mem]
  · intro hle
    exact applyLogEntries_noop s (by omega)
  · refine applyLogEntries_noop _ ?_
    rw [applyLogEntries_commitIndex, applyLogEntries_lastApplied]
    split <;> omega

/-- Witness for claim C8: a node with two committed unapplied records,
the first carrying a callback. -/
theorem applierBatchWitness :
    (applyLogEntries c8WitState).1.lastApplied = c8WitState.commitIndex ∧
    (applyLogEntries c8WitState).2 =
      applierSpecEffects c8WitState.log
        (intRange (c8WitState.lastApplied + 1) c8WitState.commitIndex) ∧
    (applyLogEntries c8WitState).1.log[1]? =
      (c8WitState.log[1]?).map
        (fun r =>
          if c8WitState.lastApplied + 1 ≤ ((1 : Nat) : Int) ∧
              ((1 : Nat) : Int) ≤ c8WitState.commitIndex then
            { r with callback := false } else r) := by
  have h := (applierBatch c8WitState (by decide) (by decide)).1 (by decide)
  exact ⟨h.1, h.2.1, h.2.2.2 1⟩

/-- Claim C9: while a Candidate, every granted RequestVote response
increments `votesGathered` by one, with no deduplication by sender (the
first conjunct holds for any sender, however often repeated); concretely, a
5-node candidate holding only its self vote reaches Leader after two
duplicate granted responses from the single peer B. -/
theorem duplicateVotesElectLeader :
    (∀ (s : NodeState) (args : RequestVoteArgs),
        s.role = Role.candidate → args.isResponse = true → args.voteGranted = true →
        args.term ≤ s.currentTerm →
        (onRequestVoteMessage s args).1.votesGathered = s.votesGathered + 1) ∧
    ((onRequestVoteMessage (onRequestVoteMessage c9State c9Msg).1 c9Msg).1.role
        = Role.leader ∧
     (onRequestVoteMessage (onRequestVoteMessage c9State c9Msg).1 c9Msg).1.votesGathered
        = 3 ∧
     c9State.votesGathered = 1 ∧ c9State.clusterSize = 5) := by
  constructor
  · intro s args h1 h2 h3 h4
    rw [onRequestVote_candidate_noBump s args h1 h4]
    unfold candidateRequestVote
    simp only [h2, h3, if_pos]
    split <;> rfl
  · exact ⟨by decide, by decide, by decide, by decide⟩

/-- Witness for claim C9: the first granted response from B increments the
tally from 1 to 2. -/
theorem duplicateVotesElectLeaderWitness :
    (onRequestVoteMessage c9State c9Msg).1.votesGathered = c9State.votesGathered + 1 :=
  duplicateVotesElectLeader.1 c9State c9Msg (by decide) (by decide) (by decide)
    (by decide)

/-- Claim C10: False on the source.  `startNewElection` contains no use of
`minElectionDelay`: two consecutive invocations — however little time has
passed since the previous election started — each increment the term and
each broadcast a RequestVote; nothing is ever suppressed. -/
theorem electionNeverSuppressed :
    (startNewElection c10State).1.currentTerm = c10State.currentTerm + 1 ∧
    (startNewElection (startNewElection c10State).1).1.currentTerm =
      c10State.currentTerm + 2 ∧
    Effect.sendElectionNotice (c10State.currentTerm + 1) (-1) none ∈
      (startNewElection c10State).2 ∧
    Effect.sendElectionNotice (c10State.currentTerm + 2) (-1) none ∈
      (startNewElection (startNewElection c10State).1).2 := by decide

end Raft
